import Mathlib

/-!
Verification of the pdf-compression-server repository.

The development shallowly embeds the request-handling and compression
orchestration logic of the four JavaScript sources:

* `src/server.js` — Ghostscript-based `/compress-pdf` and
  `/compress-pdf-advanced` endpoints with a `cleanupFiles` helper;
* `src/unnamed/part_000` — the earliest iteration (no real compression);
* `src/unnamed/part_001` — pdf-lib based re-save with
  `getCompressionSettings`;
* `src/unnamed/part_002` — the multi-preset `advancedCompress`
  orchestrator with `compressWithGhostscript` and `cleanupFile`.

File sizes are naturals, the scratch filesystem is an association list of
paths to sizes, and a Ghostscript run is abstracted by the observable
behaviour of one `gs` invocation: whether `exec` reported an error,
whether the output file got created, and the size it has if created.
-/

set_option autoImplicit false

/-- The four Ghostscript quality presets named in `part_002`. -/
inductive Level where
  | low
  | medium
  | high
  | extreme
deriving DecidableEq, Repr

/-- The `settings` table inside `compressWithGhostscript` (`part_002`),
keyed by the `Level` values actually used by the orchestrator. -/
def gsSetting : Level → String
  | Level.low => "/printer"
  | Level.medium => "/prepress"
  | Level.high => "/ebook"
  | Level.extreme => "/screen"

/-- Observable behaviour of one `gs` subprocess invocation: whether the
`exec` callback received an error, whether the requested output file was
created on disk, and the created file's size in bytes. -/
structure GsBehavior where
  execError : Bool
  outputCreated : Bool
  outputSize : Nat
deriving DecidableEq, Repr

/-- Per-invocation environment: what Ghostscript does on this input file
at each preset level (deterministic within one invocation). -/
def Env : Type := Level → GsBehavior

/-- Failure reasons of `compressWithGhostscript` (`part_002` lines 78-96):
the `exec` error branch, the missing-output branch, the empty-output
branch, plus the `statSync` throw when the input file is absent. -/
inductive GsError where
  | execFailed
  | outputMissing
  | outputEmpty
  | statFailed
deriving DecidableEq, Repr

/-- The scratch paths one `/compress` invocation touches: the uploaded
input file, the final output file in `uploads/`, and one uniquely named
candidate file in `temp/` per preset level. -/
inductive FPath where
  | input
  | output
  | temp (l : Level)
deriving DecidableEq, Repr

/-- Whether a path lies inside the `temp/` candidate directory. -/
def FPath.isTemp : FPath → Bool
  | FPath.temp _ => true
  | _ => false

/-- The scratch filesystem: existing files with their sizes. -/
abbrev FS : Type := List (FPath × Nat)

/-- `fs.statSync(p).size`, as an `Option` (`none` models the ENOENT throw). -/
def FS.statSize (fs : FS) (p : FPath) : Option Nat :=
  (fs.find? (fun e => e.1 = p)).map (fun e => e.2)

/-- `fs.existsSync(p)`. -/
def FS.existsF (fs : FS) (p : FPath) : Bool :=
  (fs.find? (fun e => e.1 = p)).isSome

/-- Creating (or overwriting) the file at `p` with size `n`. -/
def FS.write (fs : FS) (p : FPath) (n : Nat) : FS :=
  (p, n) :: fs.filter (fun e => ¬ e.1 = p)

/-- `fs.unlinkSync(p)`. -/
def FS.unlink (fs : FS) (p : FPath) : FS :=
  fs.filter (fun e => ¬ e.1 = p)

/-- Filesystem effect of one `compressWithGhostscript(inputPath, out,
level)` call (`part_002` lines 65-98): the subprocess may create the
output file. The promise then rejects on an `exec` error, rejects when
the output file does not exist, rejects when it exists with size 0
("Output file is empty"), and resolves otherwise. -/
def gsRunFS (b : GsBehavior) (fs : FS) (out : FPath) : FS :=
  if b.outputCreated then fs.write out b.outputSize else fs

/-- The settled promise of the same call, read off the filesystem the
run left behind. -/
def gsRunResult (b : GsBehavior) (fs : FS) (out : FPath) : Except GsError Unit :=
  let fs1 := gsRunFS b fs out
  if b.execError then
    Except.error GsError.execFailed
  else if fs1.existsF out then
    match fs1.statSize out with
    | some n => if 0 < n then Except.ok () else Except.error GsError.outputEmpty
    | none => Except.error GsError.outputMissing
  else
    Except.error GsError.outputMissing

/-- The pair of both effects of one `compressWithGhostscript` call. -/
def gsRun (b : GsBehavior) (fs : FS) (out : FPath) : FS × Except GsError Unit :=
  (gsRunFS b fs out, gsRunResult b fs out)

/-- The success/failure classification and measured size of one preset
run, seen from outside (the run succeeds with size `n` exactly when
`exec` reported no error and the output file exists with size `n > 0`). -/
def runLevel (env : Env) (l : Level) : Option Nat :=
  let b := env l
  if ¬ b.execError ∧ b.outputCreated ∧ 0 < b.outputSize then some b.outputSize else none

/-- The inline Ghostscript run of `server.js` `/compress-pdf` (lines
70-82): `execAsync` rejects on an `exec` error, a missing output file
throws, and otherwise `statSync(outputPath).size` is adopted as the
compressed size — with no check that it is positive. -/
def serverCompressResult (b : GsBehavior) : Except GsError Nat :=
  if b.execError then Except.error GsError.execFailed
  else if b.outputCreated then Except.ok b.outputSize
  else Except.error GsError.outputMissing

/-- The `qualitySettings` table of `server.js` `/compress-pdf-advanced`
(lines 144-148). -/
def qualitySettings : String → Option String
  | "low" => some "/screen"
  | "medium" => some "/ebook"
  | "high" => some "/printer"
  | _ => none

/-- `qualitySettings[quality] || '/ebook'` (`server.js` line 150). -/
def resolvePdfSettings (q : String) : String :=
  (qualitySettings q).getD "/ebook"

/-- The string-keyed `settings` table of `compressWithGhostscript`
(`part_002` lines 67-72); an unknown key has no entry (the command would
interpolate `undefined`). -/
def gsSettingsTable : String → Option String
  | "low" => some "/printer"
  | "medium" => some "/prepress"
  | "high" => some "/ebook"
  | "extreme" => some "/screen"
  | _ => none

/-- The pdf-lib save options produced by `getCompressionSettings`
(`part_001` lines 79-98). -/
structure PdfLibSettings where
  useObjectStreams : Bool
  objectsPerTick : Nat
deriving DecidableEq, Repr

/-- `getCompressionSettings(level)` (`part_001`): the `switch` has cases
for "high" and "medium"; the "low" case and the `default` case share one
branch returning the minimal-optimization settings. -/
def getCompressionSettings : String → PdfLibSettings
  | "high" => { useObjectStreams := true, objectsPerTick := 10 }
  | "medium" => { useObjectStreams := true, objectsPerTick := 50 }
  | _ => { useObjectStreams := false, objectsPerTick := 100 }

/-- The multer `fileFilter` of `server.js` (lines 25-32) and `part_002`
(lines 36-43): accept exactly the `application/pdf` mimetype. -/
def fileFilterAccepts (mimetype : String) : Bool :=
  mimetype = "application/pdf"

/-- What one upload pipeline does with a request of a given mimetype:
whether the file is accepted, how many scratch files get stored for it,
and whether the codec adapter is invoked on its bytes. -/
structure UploadTrace where
  accepted : Bool
  scratchFilesStored : Nat
  adapterInvoked : Bool
deriving DecidableEq, Repr

/-- The `server.js` `/compress-pdf` pipeline: multer's `fileFilter` runs
before the upload is stored, so a rejected mimetype stores no scratch
file and the handler (hence Ghostscript) never runs on it. -/
def serverUploadTrace (mime : String) : UploadTrace :=
  if fileFilterAccepts mime then
    { accepted := true, scratchFilesStored := 1, adapterInvoked := true }
  else
    { accepted := false, scratchFilesStored := 0, adapterInvoked := false }

/-- The `part_002` `/compress` pipeline: same `fileFilter` gate in front
of the disk storage and of `advancedCompress`. -/
def part002UploadTrace (mime : String) : UploadTrace :=
  if fileFilterAccepts mime then
    { accepted := true, scratchFilesStored := 1, adapterInvoked := true }
  else
    { accepted := false, scratchFilesStored := 0, adapterInvoked := false }

/-- The `part_001` `/compress-pdf` pipeline: its multer instance uses
`memoryStorage` and declares no `fileFilter` (lines 15-20), and the
handler unconditionally calls `PDFDocument.load(req.file.buffer)` on any
uploaded file, whatever its mimetype. -/
def part001UploadTrace (_mime : String) : UploadTrace :=
  { accepted := true, scratchFilesStored := 0, adapterInvoked := true }

/-- Loop state of `advancedCompress` (`part_002` lines 101-137): the
scratch filesystem, the best-so-far size and path, the trace of every
path the invocation removed, and the trace of attempted preset levels. -/
structure ACState where
  fs : FS
  bestSize : Nat
  bestPath : FPath
  deletions : List FPath
  attempts : List Level
deriving DecidableEq, Repr

/-- One iteration of the `for (const level of levels)` loop of
`advancedCompress`: run `compressWithGhostscript` into this level's fresh
temp file; on rejection just continue (the `catch` only logs); on success
re-measure the size and either adopt the candidate as the new best
(releasing the previous best unless it is the original input) or unlink
the candidate immediately. -/
def acStep (env : Env) (s : ACState) (l : Level) : ACState :=
  let t := FPath.temp l
  let run := gsRun (env l) s.fs t
  let s1 : ACState :=
    { s with fs := run.1, attempts := s.attempts ++ [l] }
  match run.2 with
  | Except.error _ => s1
  | Except.ok _ =>
    let newSize := (s1.fs.statSize t).getD 0
    if newSize < s1.bestSize ∧ 0 < newSize then
      if s1.bestPath = FPath.input then
        { s1 with bestSize := newSize, bestPath := t }
      else
        { s1 with
            fs := s1.fs.unlink s1.bestPath
            deletions := s1.deletions ++ [s1.bestPath]
            bestSize := newSize
            bestPath := t }
    else
      { s1 with fs := s1.fs.unlink t, deletions := s1.deletions ++ [t] }

/-- The fixed ordered preset list `['extreme', 'high', 'medium']`
(`part_002` line 111). -/
def levels : List Level := [Level.extreme, Level.high, Level.medium]

/-- Result of one `advancedCompress(inputPath, outputPath)` call: the
final state and the settled promise (`Except.error` models a throw). -/
structure ACResult where
  st : ACState
  result : Except GsError Unit

/-- The state `advancedCompress` starts its loop from (`part_002` lines
107-108): best-so-far seeded with the input file's size and the input
path itself, nothing attempted, nothing deleted. -/
def acInit (fs0 : FS) (origSize : Nat) : ACState :=
  { fs := fs0, bestSize := origSize, bestPath := FPath.input, deletions := [], attempts := [] }

/-- The post-loop finalization of `advancedCompress` (`part_002` lines
139-155): when the best path still is the input, fall back to one more
`compressWithGhostscript` pass at `'high'` straight to `outputPath`;
otherwise copy the winning candidate to `outputPath`, unlink it (behind
an `existsSync` guard) and recursively remove the `temp/` directory. -/
def acFinalize (env : Env) (s : ACState) : ACResult :=
  if s.bestPath = FPath.input then
    let run := gsRun (env Level.high) s.fs FPath.output
    { st := { s with fs := run.1 }, result := run.2 }
  else
    let sz := (s.fs.statSize s.bestPath).getD 0
    let fs1 := s.fs.write FPath.output sz
    let fs2 := if fs1.existsF s.bestPath then fs1.unlink s.bestPath else fs1
    let dels1 := if fs1.existsF s.bestPath then s.deletions ++ [s.bestPath] else s.deletions
    let tempGone := (fs2.filter (fun e => e.1.isTemp)).map (fun e => e.1)
    let fs3 := fs2.filter (fun e => ¬ e.1.isTemp)
    { st := { s with fs := fs3, deletions := dels1 ++ tempGone }
      result := Except.ok () }

/-- `advancedCompress` (`part_002` lines 101-156): seed best-so-far with
the input file's size and the input path, run the preset loop, then
finalize as in `acFinalize`. -/
def advancedCompress (env : Env) (fs0 : FS) : ACResult :=
  match fs0.statSize FPath.input with
  | none =>
    { st := acInit fs0 0, result := Except.error GsError.statFailed }
  | some origSize =>
    acFinalize env (levels.foldl (acStep env) (acInit fs0 origSize))

/-- The JSON/HTTP outcome of one `part_002` `/compress` invocation,
together with the final scratch filesystem, the set of paths handed to
the deferred `cleanupFile` safety net, and the attempted preset levels. -/
structure CompressResponse where
  status : Nat
  success : Bool
  originalSize : Nat
  compressedSize : Nat
  reductionPercent : ℚ
  deferred : List FPath
  fs : FS
  attempts : List Level
deriving DecidableEq, Repr

/-- The `part_002` `/compress` handler (lines 164-218) on an accepted
upload of size `origSize`: the freshly stored input file is the only
scratch file; `advancedCompress` runs; on success the handler measures
the output, reports `((originalSize - compressedSize) / originalSize) *
100` as the reduction and schedules the deferred `cleanupFile` for the
input and output files; on a throw it unlinks the input file (if still
present) and answers 500 with a single failure message. -/
def compressHandler (env : Env) (origSize : Nat) : CompressResponse :=
  let fs0 : FS := [(FPath.input, origSize)]
  let r := advancedCompress env fs0
  match r.result with
  | Except.ok _ =>
    let csize := (r.st.fs.statSize FPath.output).getD 0
    { status := 200, success := true, originalSize := origSize, compressedSize := csize
      reductionPercent := ((origSize : ℚ) - (csize : ℚ)) / (origSize : ℚ) * 100
      deferred := [FPath.input, FPath.output], fs := r.st.fs, attempts := r.st.attempts }
  | Except.error _ =>
    let fs1 := if r.st.fs.existsF FPath.input then r.st.fs.unlink FPath.input else r.st.fs
    { status := 500, success := false, originalSize := origSize, compressedSize := 0
      reductionPercent := 0, deferred := [], fs := fs1, attempts := r.st.attempts }

/-- A generic scratch filesystem for the cleanup helpers, over string
path names: the list of existing paths. -/
abbrev SFS : Type := List String

/-- `fs.existsSync(p)` over string paths. -/
def SFS.existsS (fs : SFS) (p : String) : Bool :=
  fs.contains p

/-- `fs.unlinkSync(p)` / `fs.unlink(p, cb)`: removal may fail (modelled
by the `failing` oracle, e.g. a permission error), in which case the
filesystem is unchanged and an error is signalled; otherwise the path is
removed. -/
def SFS.unlinkS (failing : List String) (fs : SFS) (p : String) : Except String SFS :=
  if failing.contains p then Except.error "EACCES"
  else Except.ok (fs.filter (fun q => ¬ q = p))

/-- `cleanupFiles(inputPath, outputPath)` (`server.js` lines 122-133):
inside one `try`, unlink the input path if non-null and existing, then
the output path likewise; any throw is caught and logged, abandoning the
rest of the body but raising nothing past the function. -/
def cleanupFiles (failing : List String) (fs : SFS) (inputPath outputPath : Option String) : SFS :=
  let step1 : Except String SFS :=
    match inputPath with
    | some p => if fs.existsS p then SFS.unlinkS failing fs p else Except.ok fs
    | none => Except.ok fs
  match step1 with
  | Except.error _ => fs
  | Except.ok fs1 =>
    match outputPath with
    | some p =>
      if fs1.existsS p then
        match SFS.unlinkS failing fs1 p with
        | Except.error _ => fs1
        | Except.ok fs2 => fs2
      else fs1
    | none => fs1

/-- The body that `cleanupFile(filePath)` (`part_002` lines 54-62)
schedules to run after its 300000 ms grace period: if the path still
exists, `fs.unlink` it, and an error is only logged by the callback. -/
def cleanupFileAction (failing : List String) (fs : SFS) (filePath : String) : SFS :=
  if fs.existsS filePath then
    match SFS.unlinkS failing fs filePath with
    | Except.error _ => fs
    | Except.ok fs1 => fs1
  else fs

/-- The grace period, in milliseconds, after which `cleanupFile` fires
(`part_002` line 61). -/
def cleanupFileDelayMs : Nat := 300000

/-- The sizes of the successful candidates, in declared preset order. -/
def succSizes (env : Env) : List Nat :=
  levels.filterMap (runLevel env)

/-- The minimum size among successful candidates, when any exists. -/
def minSuccSize (env : Env) : Option Nat :=
  match succSizes env with
  | [] => none
  | x :: xs => some (xs.foldl Nat.min x)

/-- Modelled from the spec's words, for comparison with the code: "the
winner is the first preset (in declared order) achieving the strict
minimum size among successful candidates". -/
def specBestPreset (env : Env) : Option Level :=
  match minSuccSize env with
  | none => none
  | some m => levels.find? (fun l => runLevel env l = some m)

/-- The spec-words winner adjusted by what the code's seeding forces:
only candidates strictly smaller than the original input size can win,
because best-so-far starts at the input size. -/
def specBestPresetUnderInput (env : Env) (origSize : Nat) : Option Level :=
  match minSuccSize env with
  | none => none
  | some m =>
    if m < origSize then levels.find? (fun l => runLevel env l = some m) else none

theorem FS.statSize_write_self (fs : FS) (p : FPath) (n : Nat) :
    (fs.write p n).statSize p = some n := by
  simp [FS.statSize, FS.write, List.find?]

theorem FS.existsF_write_self (fs : FS) (p : FPath) (n : Nat) :
    (fs.write p n).existsF p = true := by
  simp [FS.existsF, FS.write, List.find?]

theorem FS.existsF_eq_false_iff (fs : FS) (p : FPath) :
    fs.existsF p = false ↔ ∀ e ∈ fs, ¬ e.1 = p := by
  unfold FS.existsF
  constructor
  · intro h e he
    cases hf : fs.find? (fun e => decide (e.1 = p)) with
    | none =>
      have := List.find?_eq_none.mp hf e he
      simpa using this
    | some x => rw [hf] at h; simp at h
  · intro h
    cases hf : fs.find? (fun e => decide (e.1 = p)) with
    | none => rfl
    | some e =>
      exact absurd (by simpa using List.find?_some hf)
        (h e (List.mem_of_find?_eq_some hf))

theorem FS.mem_write (fs : FS) (p : FPath) (n : Nat) (e : FPath × Nat) :
    e ∈ fs.write p n → e = (p, n) ∨ e ∈ fs := by
  intro h
  rcases List.mem_cons.mp h with h1 | h1
  · exact Or.inl h1
  · exact Or.inr (List.mem_filter.mp h1).1

theorem FS.mem_unlink (fs : FS) (p : FPath) (e : FPath × Nat) :
    e ∈ fs.unlink p → e ∈ fs ∧ ¬ e.1 = p := by
  intro h
  have h1 := List.mem_filter.mp h
  exact ⟨h1.1, by simpa using h1.2⟩

theorem FS.mem_write_of_mem (fs : FS) (p : FPath) (n : Nat) (e : FPath × Nat)
    (he : e ∈ fs) (hne : ¬ e.1 = p) : e ∈ fs.write p n := by
  exact List.mem_cons_of_mem _ (List.mem_filter.mpr ⟨he, by simpa using hne⟩)

theorem FS.mem_unlink_of_mem (fs : FS) (p : FPath) (e : FPath × Nat)
    (he : e ∈ fs) (hne : ¬ e.1 = p) : e ∈ fs.unlink p := by
  exact List.mem_filter.mpr ⟨he, by simpa using hne⟩

theorem mem_gsRunFS (b : GsBehavior) (fs : FS) (out : FPath) (e : FPath × Nat)
    (he : e ∈ gsRunFS b fs out) : e ∈ fs ∨ e = (out, b.outputSize) := by
  unfold gsRunFS at he
  split at he
  · rcases FS.mem_write fs out b.outputSize e he with h | h
    · exact Or.inr h
    · exact Or.inl h
  · exact Or.inl he

theorem mem_gsRunFS_of_mem (b : GsBehavior) (fs : FS) (out : FPath) (e : FPath × Nat)
    (he : e ∈ fs) (hne : ¬ e.1 = out) : e ∈ gsRunFS b fs out := by
  unfold gsRunFS
  split
  · exact FS.mem_write_of_mem fs out b.outputSize e he hne
  · exact he

/-- With a fresh output path, the run settles successfully exactly when
Ghostscript reported no error and created a non-empty output file. -/
theorem gsRunResult_ok_iff (b : GsBehavior) (fs : FS) (out : FPath)
    (hfresh : fs.existsF out = false) :
    gsRunResult b fs out = Except.ok () ↔
      (b.execError = false ∧ b.outputCreated = true ∧ 0 < b.outputSize) := by
  unfold gsRunResult gsRunFS
  cases he : b.execError
  · cases hc : b.outputCreated
    · simp [hfresh]
    · by_cases hn : 0 < b.outputSize
      · simp [FS.existsF_write_self, FS.statSize_write_self, hn]
      · simp [FS.existsF_write_self, FS.statSize_write_self, hn]
  · simp

/-- The measured candidate size after a successful run into a fresh path. -/
theorem gsRunFS_statSize_self (b : GsBehavior) (fs : FS) (out : FPath)
    (hc : b.outputCreated = true) :
    (gsRunFS b fs out).statSize out = some b.outputSize := by
  unfold gsRunFS
  rw [hc]
  simp [FS.statSize_write_self]

theorem acStep_attempts (env : Env) (s : ACState) (l : Level) :
    (acStep env s l).attempts = s.attempts ++ [l] := by
  simp only [acStep, gsRun]
  split
  · rfl
  · split
    · split <;> rfl
    · rfl

theorem acStep_mem_fs (env : Env) (s : ACState) (l : Level) (e : FPath × Nat)
    (he : e ∈ (acStep env s l).fs) :
    e ∈ s.fs ∨ e = (FPath.temp l, (env l).outputSize) := by
  simp only [acStep, gsRun] at he
  split at he
  · exact mem_gsRunFS _ _ _ _ he
  · split at he
    · split at he
      · exact mem_gsRunFS _ _ _ _ he
      · exact mem_gsRunFS _ _ _ _ (FS.mem_unlink _ _ _ he).1
    · exact mem_gsRunFS _ _ _ _ (FS.mem_unlink _ _ _ he).1

theorem acStep_input_mem (env : Env) (s : ACState) (l : Level) (n : Nat)
    (h : (FPath.input, n) ∈ s.fs) : (FPath.input, n) ∈ (acStep env s l).fs := by
  have hw : (FPath.input, n) ∈ gsRunFS (env l) s.fs (FPath.temp l) :=
    mem_gsRunFS_of_mem _ _ _ _ h (by simp)
  simp only [acStep, gsRun]
  split
  · exact hw
  · split
    · split
      · exact hw
      · next hne =>
          exact FS.mem_unlink_of_mem _ _ _ hw
            (by simpa using fun hc => hne hc.symm)
    · exact FS.mem_unlink_of_mem _ _ _ hw (by simp)

theorem acStep_deletions_no_input (env : Env) (s : ACState) (l : Level)
    (h : FPath.input ∉ s.deletions) : FPath.input ∉ (acStep env s l).deletions := by
  simp only [acStep, gsRun]
  split
  · exact h
  · split
    · split
      · exact h
      · next hne =>
          simp only [List.mem_append, List.mem_singleton]
          exact fun hc => hc.elim h (fun hc2 => hne hc2.symm)
    · simpa using h

theorem acStep_existsF_false (env : Env) (s : ACState) (l : Level) (p : FPath)
    (hp : ¬ p = FPath.temp l) (h : s.fs.existsF p = false) :
    (acStep env s l).fs.existsF p = false := by
  rw [FS.existsF_eq_false_iff]
  intro e he
  rcases acStep_mem_fs env s l e he with h1 | h1
  · exact (FS.existsF_eq_false_iff s.fs p).mp h e h1
  · rw [h1]
    simpa using fun hc => hp hc.symm

/-- Pure description of one loop step's best-so-far update. -/
def stepBest (r : Option Nat) (b : Nat × FPath) (l : Level) : Nat × FPath :=
  match r with
  | none => b
  | some n => if n < b.1 ∧ 0 < n then (n, FPath.temp l) else b

/-- With a fresh temp path, one loop iteration updates the best-so-far
pair exactly as `stepBest` applied to the run's classification. -/
theorem acStep_best (env : Env) (s : ACState) (l : Level)
    (hfresh : s.fs.existsF (FPath.temp l) = false) :
    (acStep env s l).bestSize = (stepBest (runLevel env l) (s.bestSize, s.bestPath) l).1 ∧
    (acStep env s l).bestPath = (stepBest (runLevel env l) (s.bestSize, s.bestPath) l).2 := by
  simp only [acStep, gsRun, stepBest, runLevel]
  cases he : (env l).execError
  · cases hc : (env l).outputCreated
    · have hr : gsRunResult (env l) s.fs (FPath.temp l) = Except.error GsError.outputMissing := by
        unfold gsRunResult gsRunFS
        rw [he, hc]
        simp [hfresh]
      rw [hr]
      simp [he, hc]
    · by_cases hn : 0 < (env l).outputSize
      · have hr : gsRunResult (env l) s.fs (FPath.temp l) = Except.ok () := by
          unfold gsRunResult gsRunFS
          rw [he, hc]
          simp [FS.existsF_write_self, FS.statSize_write_self, hn]
        have hs : (gsRunFS (env l) s.fs (FPath.temp l)).statSize (FPath.temp l)
            = some (env l).outputSize := gsRunFS_statSize_self _ _ _ hc
        rw [hr]
        simp only [hs, Option.getD_some]
        simp only [he, hc, hn, Bool.not_true, Bool.false_eq_true, not_false_eq_true,
          true_and, and_true, if_pos]
        by_cases hlt : (env l).outputSize < s.bestSize
        · simp [hlt, hn]
          split <;> simp
        · simp [hlt]
      · have hr : gsRunResult (env l) s.fs (FPath.temp l) = Except.error GsError.outputEmpty := by
          unfold gsRunResult gsRunFS
          rw [he, hc]
          simp [FS.existsF_write_self, FS.statSize_write_self, hn]
        rw [hr]
        simp [he, hc, hn]
  · have hr : gsRunResult (env l) s.fs (FPath.temp l) = Except.error GsError.execFailed := by
      unfold gsRunResult
      rw [he]
      rfl
    rw [hr]
    simp [he]

/-- A preset run that leaves no stray file behind on failure: either the
run succeeded, or it never created its output file. -/
def SelfClean (b : GsBehavior) : Prop :=
  b.outputCreated = true → (b.execError = false ∧ 0 < b.outputSize)

instance (b : GsBehavior) : Decidable (SelfClean b) := by
  unfold SelfClean
  infer_instance


theorem gsRunResult_ok_of (b : GsBehavior) (fs : FS) (out : FPath)
    (he : b.execError = false) (hc : b.outputCreated = true) (hn : 0 < b.outputSize) :
    gsRunResult b fs out = Except.ok () := by
  unfold gsRunResult gsRunFS
  rw [he, hc]
  simp [FS.existsF_write_self, FS.statSize_write_self, hn]

theorem acStep_liveOk (env : Env) (s : ACState) (l : Level)
    (hsc : SelfClean (env l))
    (hlive : ∀ e ∈ s.fs, e.1 = FPath.input ∨ e.1 = s.bestPath) :
    ∀ e ∈ (acStep env s l).fs, e.1 = FPath.input ∨ e.1 = (acStep env s l).bestPath := by
  intro e he
  cases hr : gsRunResult (env l) s.fs (FPath.temp l) with
  | error a =>
    have hc : (env l).outputCreated = false := by
      cases hcc : (env l).outputCreated
      · rfl
      · rcases hsc hcc with ⟨he2, hn2⟩
        rw [gsRunResult_ok_of (env l) s.fs (FPath.temp l) he2 hcc hn2] at hr
        cases hr
    have hfs : gsRunFS (env l) s.fs (FPath.temp l) = s.fs := by
      simp [gsRunFS, hc]
    simp only [acStep, gsRun, hr, hfs] at he ⊢
    exact hlive e he
  | ok u =>
    simp only [acStep, gsRun, hr] at he ⊢
    split_ifs at he ⊢ with h1 h2
    · rcases mem_gsRunFS _ _ _ _ he with h3 | h3
      · rcases hlive e h3 with h4 | h4
        · exact Or.inl h4
        · exact Or.inl (by rw [h4, h2])
      · exact Or.inr (by rw [h3])
    · rcases FS.mem_unlink _ _ _ he with ⟨h3, h4⟩
      rcases mem_gsRunFS _ _ _ _ h3 with h5 | h5
      · rcases hlive e h5 with h6 | h6
        · exact Or.inl h6
        · exact absurd h6 h4
      · exact Or.inr (by rw [h5])
    · rcases FS.mem_unlink _ _ _ he with ⟨h3, h4⟩
      rcases mem_gsRunFS _ _ _ _ h3 with h5 | h5
      · exact hlive e h5
      · exact absurd (by rw [h5]) h4

theorem runLevel_pos (env : Env) (l : Level) (n : Nat)
    (h : runLevel env l = some n) : 0 < n := by
  simp only [runLevel] at h
  split at h
  · next hc =>
    injection h with h2
    rw [← h2]
    exact hc.2.2
  · cases h

/-- Pure fold of `stepBest` over the declared level list. -/
def loopBestPure (env : Env) (b : Nat × FPath) : Nat × FPath :=
  levels.foldl (fun acc l => stepBest (runLevel env l) acc l) b

theorem acFinalize_bestPath (env : Env) (s : ACState) :
    (acFinalize env s).st.bestPath = s.bestPath := by
  simp only [acFinalize, gsRun]
  split <;> rfl

theorem acFinalize_bestSize (env : Env) (s : ACState) :
    (acFinalize env s).st.bestSize = s.bestSize := by
  simp only [acFinalize, gsRun]
  split <;> rfl

theorem acFinalize_attempts (env : Env) (s : ACState) :
    (acFinalize env s).st.attempts = s.attempts := by
  simp only [acFinalize, gsRun]
  split <;> rfl

theorem acFinalize_result_fallback (env : Env) (s : ACState)
    (h : s.bestPath = FPath.input) :
    (acFinalize env s).result = gsRunResult (env Level.high) s.fs FPath.output := by
  simp only [acFinalize, gsRun, h]
  rfl

theorem acFinalize_result_winner (env : Env) (s : ACState)
    (h : ¬ s.bestPath = FPath.input) :
    (acFinalize env s).result = Except.ok () := by
  simp only [acFinalize, gsRun, h]
  rfl

theorem statSize_singleton (origSize : Nat) :
    FS.statSize [(FPath.input, origSize)] FPath.input = some origSize := rfl

theorem advancedCompress_handler_red (env : Env) (origSize : Nat) :
    advancedCompress env [(FPath.input, origSize)] =
      acFinalize env (levels.foldl (acStep env) (acInit [(FPath.input, origSize)] origSize)) := by
  unfold advancedCompress
  rw [statSize_singleton]

/-- Through the three loop iterations of `advancedCompress`, started on a
scratch area holding only the input file, the best-so-far pair evolves
exactly as the pure `stepBest` fold. -/
theorem loop_best_eq (env : Env) (origSize : Nat) :
    ((levels.foldl (acStep env) (acInit [(FPath.input, origSize)] origSize)).bestSize,
     (levels.foldl (acStep env) (acInit [(FPath.input, origSize)] origSize)).bestPath)
      = loopBestPure env (origSize, FPath.input) := by
  have h0e : (acInit [(FPath.input, origSize)] origSize).fs.existsF
      (FPath.temp Level.extreme) = false := by
    simp [acInit, FS.existsF, List.find?]
  have h0h : (acInit [(FPath.input, origSize)] origSize).fs.existsF
      (FPath.temp Level.high) = false := by
    simp [acInit, FS.existsF, List.find?]
  have h0m : (acInit [(FPath.input, origSize)] origSize).fs.existsF
      (FPath.temp Level.medium) = false := by
    simp [acInit, FS.existsF, List.find?]
  have h1h := acStep_existsF_false env (acInit [(FPath.input, origSize)] origSize)
    Level.extreme (FPath.temp Level.high) (by simp) h0h
  have h1m := acStep_existsF_false env (acInit [(FPath.input, origSize)] origSize)
    Level.extreme (FPath.temp Level.medium) (by simp) h0m
  have h2m := acStep_existsF_false env
    (acStep env (acInit [(FPath.input, origSize)] origSize) Level.extreme)
    Level.high (FPath.temp Level.medium) (by simp) h1m
  have hb1 := acStep_best env (acInit [(FPath.input, origSize)] origSize) Level.extreme h0e
  have hb2 := acStep_best env
    (acStep env (acInit [(FPath.input, origSize)] origSize) Level.extreme) Level.high h1h
  have hb3 := acStep_best env
    (acStep env (acStep env (acInit [(FPath.input, origSize)] origSize) Level.extreme) Level.high)
    Level.medium h2m
  have hfold : levels.foldl (acStep env) (acInit [(FPath.input, origSize)] origSize)
      = acStep env (acStep env (acStep env (acInit [(FPath.input, origSize)] origSize)
          Level.extreme) Level.high) Level.medium := rfl
  have hpure : loopBestPure env (origSize, FPath.input)
      = stepBest (runLevel env Level.medium)
          (stepBest (runLevel env Level.high)
            (stepBest (runLevel env Level.extreme) (origSize, FPath.input) Level.extreme)
            Level.high)
          Level.medium := rfl
  rw [hfold, hpure]
  rw [hb3.1, hb3.2, hb2.1, hb2.2, hb1.1, hb1.2]
  have hinit : ((acInit [(FPath.input, origSize)] origSize).bestSize,
      (acInit [(FPath.input, origSize)] origSize).bestPath) = (origSize, FPath.input) := rfl
  rw [← hinit]

theorem find?_cons_eq_ite {α : Type} (p : α → Bool) (a : α) (ls : List α) :
    List.find? p (a :: ls) = if p a = true then some a else List.find? p ls := by
  by_cases h : p a = true
  · simp [List.find?_cons_of_pos, h]
  · simp [List.find?_cons_of_neg, h]

set_option maxHeartbeats 2000000 in
set_option linter.unusedTactic false in
/-- The pure best-so-far fold lands on the spec-side winner adjusted by
the input-size seed: the first preset attaining the strict minimum among
successful candidates, provided that minimum beats the input size. -/
theorem loopBestPure_bestPath (env : Env) (origSize : Nat) :
    (loopBestPure env (origSize, FPath.input)).2
      = match specBestPresetUnderInput env origSize with
        | some l => FPath.temp l
        | none => FPath.input := by
  have hp1 : ∀ n, runLevel env Level.extreme = some n → 0 < n :=
    fun n h => runLevel_pos env Level.extreme n h
  have hp2 : ∀ n, runLevel env Level.high = some n → 0 < n :=
    fun n h => runLevel_pos env Level.high n h
  have hp3 : ∀ n, runLevel env Level.medium = some n → 0 < n :=
    fun n h => runLevel_pos env Level.medium n h
  rcases hr1 : runLevel env Level.extreme with _ | n1 <;>
    rcases hr2 : runLevel env Level.high with _ | n2 <;>
      rcases hr3 : runLevel env Level.medium with _ | n3
  all_goals try replace hp1 := hp1 n1 hr1
  all_goals try replace hp2 := hp2 n2 hr2
  all_goals try replace hp3 := hp3 n3 hr3
  all_goals
    simp only [loopBestPure, levels, List.foldl, stepBest, specBestPresetUnderInput,
      minSuccSize, succSizes, List.filterMap_cons, List.filterMap_nil,
      find?_cons_eq_ite, List.find?_nil, hr1, hr2, hr3, Option.some.injEq,
      decide_eq_true_eq, Nat.min_def]
  all_goals split_ifs
  all_goals first | rfl | omega | (simp_all; omega) | simp_all

/-- The winner `advancedCompress` ends up with, on the handler's fresh
scratch area: the spec-side winner under the input-size seed. -/
theorem advancedCompress_bestPath (env : Env) (origSize : Nat) :
    (advancedCompress env [(FPath.input, origSize)]).st.bestPath
      = match specBestPresetUnderInput env origSize with
        | some l => FPath.temp l
        | none => FPath.input := by
  rw [advancedCompress_handler_red, acFinalize_bestPath]
  have h := loop_best_eq env origSize
  have h2 := congrArg Prod.snd h
  simpa using h2.trans (loopBestPure_bestPath env origSize)

theorem SFS.existsS_false_iff (fs : SFS) (p : String) :
    SFS.existsS fs p = false ↔ p ∉ fs := by
  simp [SFS.existsS]

theorem SFS.mem_filter_ne (fs : SFS) (p x : String) (hx : x ∈ fs.filter (fun q => ¬ q = p)) :
    x ∈ fs ∧ ¬ x = p := by
  have h := List.mem_filter.mp hx
  exact ⟨h.1, by simpa using h.2⟩

theorem cleanupFileAction_mem (failing fs : List String) (q x : String)
    (hx : x ∈ cleanupFileAction failing fs q) : x ∈ fs := by
  unfold cleanupFileAction SFS.unlinkS at hx
  split at hx
  · split at hx
    · exact hx
    · next heq =>
      split at heq
      · cases heq
      · injection heq with h2
        rw [← h2] at hx
        exact (SFS.mem_filter_ne fs q x hx).1
  · exact hx

theorem cleanupFileAction_idem (failing fs : List String) (q : String) :
    cleanupFileAction failing (cleanupFileAction failing fs q) q
      = cleanupFileAction failing fs q := by
  by_cases he : SFS.existsS fs q = true
  · by_cases hfail : failing.contains q = true
    · have hm : q ∈ failing := by simpa using hfail
      have h1 : cleanupFileAction failing fs q = fs := by
        unfold cleanupFileAction SFS.unlinkS
        rw [he]
        simp [hm]
      rw [h1, h1]
    · have hnm : q ∉ failing := by simpa using hfail
      have h1 : cleanupFileAction failing fs q = fs.filter (fun r => ¬ r = q) := by
        unfold cleanupFileAction SFS.unlinkS
        rw [he]
        simp [hnm]
      have h2 : SFS.existsS (fs.filter (fun r => ¬ r = q)) q = false := by
        rw [SFS.existsS_false_iff]
        intro hmem
        exact (SFS.mem_filter_ne fs q q hmem).2 rfl
      rw [h1]
      unfold cleanupFileAction
      rw [h2]
      simp
  · have hf : SFS.existsS fs q = false := by simpa using he
    have h1 : cleanupFileAction failing fs q = fs := by
      unfold cleanupFileAction
      rw [hf]
      simp
    rw [h1, h1]

theorem cleanupFiles_none (failing fs : List String) (o : Option String) :
    cleanupFiles failing fs none o
      = match o with
        | none => fs
        | some q => cleanupFileAction failing fs q := by
  cases o <;> rfl

theorem cleanupFiles_skip_input (failing fs : List String) (p : String) (o : Option String)
    (h : SFS.existsS fs p = false) :
    cleanupFiles failing fs (some p) o = cleanupFiles failing fs none o := by
  cases o <;> simp [cleanupFiles, h]

theorem cleanupFiles_input_fail (failing fs : List String) (p : String) (o : Option String)
    (he : SFS.existsS fs p = true) (hm : p ∈ failing) :
    cleanupFiles failing fs (some p) o = fs := by
  cases o <;> simp [cleanupFiles, SFS.unlinkS, he, hm]

theorem cleanupFiles_input_ok (failing fs : List String) (p : String) (o : Option String)
    (he : SFS.existsS fs p = true) (hm : p ∉ failing) :
    cleanupFiles failing fs (some p) o
      = cleanupFiles failing (fs.filter (fun r => ¬ r = p)) none o := by
  cases o <;> simp [cleanupFiles, SFS.unlinkS, he, hm]

theorem cleanupFiles_none_mem (failing fs : List String) (o : Option String) (x : String)
    (hx : x ∈ cleanupFiles failing fs none o) : x ∈ fs := by
  rw [cleanupFiles_none] at hx
  cases o with
  | none => exact hx
  | some q => exact cleanupFileAction_mem failing fs q x hx

theorem cleanupFiles_none_idem (failing fs : List String) (o : Option String) :
    cleanupFiles failing (cleanupFiles failing fs none o) none o
      = cleanupFiles failing fs none o := by
  cases o with
  | none => rfl
  | some q =>
    rw [cleanupFiles_none, cleanupFiles_none]
    exact cleanupFileAction_idem failing fs q

theorem cleanupFiles_idem (failing fs : List String) (i o : Option String) :
    cleanupFiles failing (cleanupFiles failing fs i o) i o = cleanupFiles failing fs i o := by
  cases i with
  | none => exact cleanupFiles_none_idem failing fs o
  | some p =>
    by_cases he : SFS.existsS fs p = true
    · by_cases hm : p ∈ failing
      · rw [cleanupFiles_input_fail failing fs p o he hm]
        exact cleanupFiles_input_fail failing fs p o he hm
      · rw [cleanupFiles_input_ok failing fs p o he hm]
        have hne : SFS.existsS (cleanupFiles failing (fs.filter (fun r => ¬ r = p)) none o) p
            = false := by
          rw [SFS.existsS_false_iff]
          intro hmem
          have h2 := cleanupFiles_none_mem failing _ o p hmem
          exact (SFS.mem_filter_ne fs p p h2).2 rfl
        rw [cleanupFiles_skip_input failing _ p o hne]
        exact cleanupFiles_none_idem failing _ o
    · have hf : SFS.existsS fs p = false := by simpa using he
      rw [cleanupFiles_skip_input failing fs p o hf]
      have hne : SFS.existsS (cleanupFiles failing fs none o) p = false := by
        rw [SFS.existsS_false_iff]
        intro hmem
        have h2 := cleanupFiles_none_mem failing fs o p hmem
        rw [SFS.existsS_false_iff] at hf
        exact hf h2
      rw [cleanupFiles_skip_input failing _ p o hne]
      exact cleanupFiles_none_idem failing fs o

theorem compressHandler_of_ok (env : Env) (origSize : Nat)
    (h : (advancedCompress env [(FPath.input, origSize)]).result = Except.ok ()) :
    compressHandler env origSize =
      { status := 200, success := true, originalSize := origSize,
        compressedSize :=
          (FS.statSize (advancedCompress env [(FPath.input, origSize)]).st.fs FPath.output).getD 0,
        reductionPercent :=
          ((origSize : ℚ) -
            ((FS.statSize (advancedCompress env [(FPath.input, origSize)]).st.fs
              FPath.output).getD 0 : ℚ)) / (origSize : ℚ) * 100,
        deferred := [FPath.input, FPath.output],
        fs := (advancedCompress env [(FPath.input, origSize)]).st.fs,
        attempts := (advancedCompress env [(FPath.input, origSize)]).st.attempts } := by
  simp only [compressHandler, h]

theorem compressHandler_of_error (env : Env) (origSize : Nat) (e : GsError)
    (h : (advancedCompress env [(FPath.input, origSize)]).result = Except.error e) :
    compressHandler env origSize =
      { status := 500, success := false, originalSize := origSize, compressedSize := 0,
        reductionPercent := 0, deferred := [],
        fs :=
          if FS.existsF (advancedCompress env [(FPath.input, origSize)]).st.fs FPath.input
          then FS.unlink (advancedCompress env [(FPath.input, origSize)]).st.fs FPath.input
          else (advancedCompress env [(FPath.input, origSize)]).st.fs,
        attempts := (advancedCompress env [(FPath.input, origSize)]).st.attempts } := by
  simp only [compressHandler, h]

/-- The reduction percentage reported by `server.js` `/compress-pdf`
(lines 83 and 90): `(1 - stats.size / req.file.size) * 100`, modelling
JavaScript number arithmetic by exact rationals. -/
def serverReductionPercent (originalSize compressedSize : Nat) : ℚ :=
  (1 - (compressedSize : ℚ) / (originalSize : ℚ)) * 100

/-- The reduction percentage computed by `part_001` (line 59) and
`part_002` (line 189): `(originalSize - compressedSize) / originalSize *
100`. -/
def part001ReductionPercent (originalSize compressedSize : Nat) : ℚ :=
  ((originalSize : ℚ) - (compressedSize : ℚ)) / (originalSize : ℚ) * 100

/-- Claim C4, counterexample: the `server.js` `/compress-pdf` handler
classifies a run that created a zero-length output file as a success
carrying output size 0 — the claim says a zero-length output must be a
failure for every adapter invocation. -/
theorem c4_counterexample :
    serverCompressResult { execError := false, outputCreated := true, outputSize := 0 }
      = Except.ok 0 := rfl

/-- Claim C4 (amended): in `part_002`, `compressWithGhostscript`
classifies a run with a missing or zero-length output file as a failure
and every success carries a strictly positive output size; but the
`server.js` `/compress-pdf` handler only treats a missing output file as
a failure — any created output file is accepted as success, its size
(possibly 0) being whatever `statSync` reports. -/
theorem c4_output_validation (b : GsBehavior) (fs : FS) (out : FPath)
    (hfresh : fs.existsF out = false) :
    ((gsRunResult b fs out = Except.ok ()) → 0 < b.outputSize) ∧
    (b.outputCreated = false → ¬ gsRunResult b fs out = Except.ok ()) ∧
    (b.outputSize = 0 → ¬ gsRunResult b fs out = Except.ok ()) ∧
    (∀ n, serverCompressResult b = Except.ok n →
      b.execError = false ∧ b.outputCreated = true ∧ n = b.outputSize) := by
  refine ⟨?_, ?_, ?_, ?_⟩
  · intro h
    exact ((gsRunResult_ok_iff b fs out hfresh).mp h).2.2
  · intro hc h
    rw [((gsRunResult_ok_iff b fs out hfresh).mp h).2.1] at hc
    cases hc
  · intro hz h
    have := ((gsRunResult_ok_iff b fs out hfresh).mp h).2.2
    omega
  · intro n h
    unfold serverCompressResult at h
    cases he : b.execError
    · rw [he] at h
      cases hc : b.outputCreated
      · rw [hc] at h
        simp at h
      · rw [hc] at h
        simp at h
        exact ⟨rfl, rfl, h.symm⟩
    · rw [he] at h
      simp at h

/-- Claim C4 witness: a successful run with a 5-byte output satisfies
the amended statement's hypotheses. -/
theorem c4_output_validation_witness :
    FS.existsF [] FPath.output = false ∧
    (gsRunResult { execError := false, outputCreated := true, outputSize := 5 } []
        FPath.output = Except.ok () → 0 < (5 : Nat)) := by
  refine ⟨rfl, ?_⟩
  have h := c4_output_validation
    { execError := false, outputCreated := true, outputSize := 5 } [] FPath.output rfl
  exact fun hc => h.1 hc

/-- Claim C6, counterexample: the tier "extreme" is absent from
`part_001`'s switch, and `getCompressionSettings` resolves it to the
minimal-optimization ("low") settings, not to the "medium" settings the
claim requires. -/
theorem c6_counterexample :
    getCompressionSettings "extreme" = { useObjectStreams := false, objectsPerTick := 100 } ∧
    getCompressionSettings "low" = { useObjectStreams := false, objectsPerTick := 100 } ∧
    getCompressionSettings "medium" = { useObjectStreams := true, objectsPerTick := 50 } ∧
    ¬ getCompressionSettings "extreme" = getCompressionSettings "medium" := by
  refine ⟨rfl, rfl, rfl, ?_⟩
  intro h
  have h2 := congrArg PdfLibSettings.useObjectStreams h
  simp [getCompressionSettings] at h2

/-- Claim C6 (amended): an unknown quality tier falls back to the
"medium" `/ebook` setting only in `server.js` `/compress-pdf-advanced`;
in `part_001` it resolves to the low settings (the switch default shares
the "low" branch), and in `part_002`'s string table it has no entry at
all. -/
theorem c6_unknown_tier_resolution (q : String)
    (h1 : ¬ q = "low") (h2 : ¬ q = "medium") (h3 : ¬ q = "high") (h4 : ¬ q = "extreme") :
    resolvePdfSettings q = "/ebook" ∧
    qualitySettings "medium" = some "/ebook" ∧
    getCompressionSettings q = getCompressionSettings "low" ∧
    ¬ getCompressionSettings q = getCompressionSettings "medium" ∧
    gsSettingsTable q = none := by
  have hq : qualitySettings q = none := by
    rw [qualitySettings.eq_def]
    split
    · exact absurd rfl h1
    · exact absurd rfl h2
    · exact absurd rfl h3
    · rfl
  have hg : getCompressionSettings q = { useObjectStreams := false, objectsPerTick := 100 } := by
    rw [getCompressionSettings.eq_def]
    split
    · exact absurd rfl h3
    · exact absurd rfl h2
    · rfl
  have ht : gsSettingsTable q = none := by
    rw [gsSettingsTable.eq_def]
    split
    · exact absurd rfl h1
    · exact absurd rfl h2
    · exact absurd rfl h3
    · exact absurd rfl h4
    · rfl
  refine ⟨?_, rfl, ?_, ?_, ht⟩
  · unfold resolvePdfSettings
    rw [hq]
    rfl
  · rw [hg]
    rfl
  · rw [hg]
    intro h
    have h5 := congrArg PdfLibSettings.useObjectStreams h
    simp [getCompressionSettings] at h5

/-- Claim C6 witness: the unknown tier "ultra". -/
theorem c6_unknown_tier_resolution_witness :
    resolvePdfSettings "ultra" = "/ebook" ∧ gsSettingsTable "ultra" = none := by
  have h := c6_unknown_tier_resolution "ultra"
    (by decide) (by decide) (by decide) (by decide)
  exact ⟨h.1, h.2.2.2.2⟩

/-- Claim C7, counterexample: `part_001` declares no `fileFilter`, so a
"text/plain" upload is accepted and the pdf-lib codec adapter is invoked
on its bytes — the claim says every non-PDF payload is rejected before
any codec adapter runs. -/
theorem c7_counterexample :
    fileFilterAccepts "text/plain" = false ∧
    (part001UploadTrace "text/plain").accepted = true ∧
    (part001UploadTrace "text/plain").adapterInvoked = true := by
  refine ⟨?_, rfl, rfl⟩
  decide

/-- Claim C7 (amended): in `server.js` and `part_002` the multer
`fileFilter` rejects a non-PDF mimetype before the upload is stored and
before any codec adapter runs (zero scratch files); `part_001` performs
no mimetype check at all — the pdf-lib adapter is invoked on any
payload, though with `memoryStorage` no scratch file is allocated
either. -/
theorem c7_non_pdf_rejection (mime : String) (h : ¬ mime = "application/pdf") :
    serverUploadTrace mime
      = { accepted := false, scratchFilesStored := 0, adapterInvoked := false } ∧
    part002UploadTrace mime
      = { accepted := false, scratchFilesStored := 0, adapterInvoked := false } ∧
    (part001UploadTrace mime).adapterInvoked = true ∧
    (part001UploadTrace mime).scratchFilesStored = 0 := by
  have hf : fileFilterAccepts mime = false := by
    simp [fileFilterAccepts, h]
  refine ⟨?_, ?_, rfl, rfl⟩
  · unfold serverUploadTrace
    rw [hf]
    rfl
  · unfold part002UploadTrace
    rw [hf]
    rfl

/-- Claim C7 witness: the mimetype "image/png". -/
theorem c7_non_pdf_rejection_witness :
    serverUploadTrace "image/png"
      = { accepted := false, scratchFilesStored := 0, adapterInvoked := false } ∧
    (part001UploadTrace "image/png").adapterInvoked = true := by
  have h := c7_non_pdf_rejection "image/png" (by decide)
  exact ⟨h.1, h.2.2.1⟩

/-- Claim C8: for every successful `/compress` invocation with positive
original size, the reported reduction percentage is exactly
`(originalSize - compressedSize) / originalSize * 100`, which equals
`(1 - compressedSize/originalSize) * 100`; the `server.js` and
`part_001`/`part_002` formulas agree as exact rational functions of the
two measured sizes. -/
theorem c8_reduction_formula (env : Env) (origSize : Nat)
    (hpos : 0 < origSize) (hsucc : (compressHandler env origSize).success = true) :
    (compressHandler env origSize).reductionPercent
      = (1 - ((compressHandler env origSize).compressedSize : ℚ)
          / ((compressHandler env origSize).originalSize : ℚ)) * 100 ∧
    (compressHandler env origSize).reductionPercent
      = part001ReductionPercent (compressHandler env origSize).originalSize
          (compressHandler env origSize).compressedSize ∧
    (∀ compressedSize : Nat,
      serverReductionPercent origSize compressedSize
        = part001ReductionPercent origSize compressedSize) := by
  have hO : ((origSize : ℚ)) ≠ 0 := by
    exact_mod_cast Nat.pos_iff_ne_zero.mp hpos
  have hformula : ∀ compressedSize : Nat,
      serverReductionPercent origSize compressedSize
        = part001ReductionPercent origSize compressedSize := by
    intro s
    unfold serverReductionPercent part001ReductionPercent
    field_simp
  cases hr : (advancedCompress env [(FPath.input, origSize)]).result with
  | ok u =>
    cases u
    rw [compressHandler_of_ok env origSize hr]
    refine ⟨?_, ?_, hformula⟩
    · have h2 := hformula
        ((FS.statSize (advancedCompress env [(FPath.input, origSize)]).st.fs FPath.output).getD 0)
      unfold serverReductionPercent part001ReductionPercent at h2
      exact h2.symm
    · rfl
  | error e =>
    rw [compressHandler_of_error env origSize e hr] at hsucc
    simp at hsucc

/-- Claim C8 witness: all presets succeed with 40-byte outputs on a
100-byte input. -/
theorem c8_reduction_formula_witness :
    0 < 100 ∧
    (compressHandler (fun _ => { execError := false, outputCreated := true, outputSize := 40 })
      100).success = true ∧
    (compressHandler (fun _ => { execError := false, outputCreated := true, outputSize := 40 })
        100).reductionPercent
      = (1 - ((compressHandler
            (fun _ => { execError := false, outputCreated := true, outputSize := 40 })
            100).compressedSize : ℚ)
          / ((compressHandler
            (fun _ => { execError := false, outputCreated := true, outputSize := 40 })
            100).originalSize : ℚ)) * 100 :=
  ⟨by decide, by decide,
    (c8_reduction_formula
      (fun _ => { execError := false, outputCreated := true, outputSize := 40 })
      100 (by decide) (by decide)).1⟩

/-- Claim C9: `cleanupFiles` (`server.js`) and the deferred
`cleanupFile` body (`part_002`) are idempotent and total: running either
twice equals running it once, running on an absent path changes nothing,
and a deletion error (the `failing` oracle) is swallowed, leaving the
filesystem unchanged instead of raising. -/
theorem c9_release_idempotent (failing fs : List String) (i o : Option String) (p : String) :
    (cleanupFiles failing (cleanupFiles failing fs i o) i o = cleanupFiles failing fs i o) ∧
    (cleanupFileAction failing (cleanupFileAction failing fs p) p
      = cleanupFileAction failing fs p) ∧
    (SFS.existsS fs p = false → cleanupFiles failing fs (some p) (some p) = fs) ∧
    (SFS.existsS fs p = false → cleanupFileAction failing fs p = fs) ∧
    (p ∈ failing → cleanupFileAction failing fs p = fs) := by
  refine ⟨cleanupFiles_idem failing fs i o, cleanupFileAction_idem failing fs p, ?_, ?_, ?_⟩
  · intro h
    rw [cleanupFiles_skip_input failing fs p (some p) h, cleanupFiles_none]
    simp only []
    unfold cleanupFileAction
    simp [h]
  · intro h
    unfold cleanupFileAction
    simp [h]
  · intro hm
    by_cases he : SFS.existsS fs p = true
    · unfold cleanupFileAction SFS.unlinkS
      rw [he]
      simp [hm]
    · have hf : SFS.existsS fs p = false := by simpa using he
      unfold cleanupFileAction
      rw [hf]
      simp

/-- Claim C9 witness: deleting the lone file "a" twice, and releasing
the absent path "b". -/
theorem c9_release_idempotent_witness :
    cleanupFiles [] (cleanupFiles [] ["a"] (some "a") none) (some "a") none
      = cleanupFiles [] ["a"] (some "a") none ∧
    cleanupFileAction [] ["a"] "b" = ["a"] := by
  have h := c9_release_idempotent [] ["a"] (some "a") none "b"
  exact ⟨h.1, h.2.2.2.1 (by decide)⟩

theorem FS.existsF_true_iff (fs : FS) (p : FPath) :
    fs.existsF p = true ↔ ∃ n, (p, n) ∈ fs := by
  constructor
  · intro h
    unfold FS.existsF at h
    cases hf : fs.find? (fun e => decide (e.1 = p)) with
    | none => rw [hf] at h; cases h
    | some e =>
      have hm := List.mem_of_find?_eq_some hf
      have hp : e.1 = p := by simpa using List.find?_some hf
      exact ⟨e.2, by rw [← hp]; exact hm⟩
  · rintro ⟨n, hn⟩
    cases hc : fs.existsF p with
    | true => rfl
    | false =>
      exact absurd rfl ((FS.existsF_eq_false_iff fs p).mp hc (p, n) hn)

theorem FS.statSize_isSome_of_existsF (fs : FS) (p : FPath)
    (h : fs.existsF p = true) : ∃ n, fs.statSize p = some n := by
  unfold FS.existsF at h
  unfold FS.statSize
  cases hf : fs.find? (fun e => decide (e.1 = p)) with
  | none => rw [hf] at h; cases h
  | some e => exact ⟨e.2, rfl⟩

theorem foldl_input_pres (env : Env) (L : List Level) (s : ACState)
    (hfs : s.fs.existsF FPath.input = true) (hdel : FPath.input ∉ s.deletions) :
    (L.foldl (acStep env) s).fs.existsF FPath.input = true ∧
    FPath.input ∉ (L.foldl (acStep env) s).deletions := by
  induction L generalizing s with
  | nil => exact ⟨hfs, hdel⟩
  | cons l ls ih =>
    have hstep_fs : (acStep env s l).fs.existsF FPath.input = true := by
      rcases (FS.existsF_true_iff s.fs FPath.input).mp hfs with ⟨n, hn⟩
      exact (FS.existsF_true_iff _ FPath.input).mpr ⟨n, acStep_input_mem env s l n hn⟩
    have hstep_del := acStep_deletions_no_input env s l hdel
    exact ih (acStep env s l) hstep_fs hstep_del

theorem acFinalize_input_pres (env : Env) (s : ACState)
    (hfs : s.fs.existsF FPath.input = true) (hdel : FPath.input ∉ s.deletions) :
    (acFinalize env s).st.fs.existsF FPath.input = true ∧
    FPath.input ∉ (acFinalize env s).st.deletions := by
  rcases (FS.existsF_true_iff s.fs FPath.input).mp hfs with ⟨n, hn⟩
  simp only [acFinalize, gsRun]
  split
  · constructor
    · exact (FS.existsF_true_iff _ FPath.input).mpr
        ⟨n, mem_gsRunFS_of_mem _ s.fs FPath.output _ hn (by simp)⟩
    · exact hdel
  · next hbp =>
    constructor
    · refine (FS.existsF_true_iff _ FPath.input).mpr ⟨n, ?_⟩
      have h1 : (FPath.input, n) ∈ s.fs.write FPath.output
          ((s.fs.statSize s.bestPath).getD 0) :=
        FS.mem_write_of_mem _ _ _ _ hn (by simp)
      have h2 : (FPath.input, n) ∈
          (if (s.fs.write FPath.output ((s.fs.statSize s.bestPath).getD 0)).existsF s.bestPath
           then (s.fs.write FPath.output ((s.fs.statSize s.bestPath).getD 0)).unlink s.bestPath
           else s.fs.write FPath.output ((s.fs.statSize s.bestPath).getD 0)) := by
        split
        · exact FS.mem_unlink_of_mem _ _ _ h1 (by simpa using fun hc => hbp hc.symm)
        · exact h1
      exact List.mem_filter.mpr ⟨h2, by simp [FPath.isTemp]⟩
    · intro hc
      rcases List.mem_append.mp hc with h1 | h1
      · split at h1
        · rcases List.mem_append.mp h1 with h2 | h2
          · exact hdel h2
          · rw [List.mem_singleton] at h2
            exact hbp h2.symm
        · exact hdel h1
      · rcases List.mem_map.mp h1 with ⟨e, he, hpe⟩
        have h3 := (List.mem_filter.mp he).2
        rw [hpe] at h3
        simp [FPath.isTemp] at h3

/-- Claim C10: the best-of loop of `advancedCompress` never deletes the
uploaded input file: no removed path equals `inputPath` (the current
best is only released when it differs from the input), and the input
file still exists when `advancedCompress` returns. -/
theorem c10_input_preserved (env : Env) (fs0 : FS)
    (h : fs0.existsF FPath.input = true) :
    FPath.input ∉ (advancedCompress env fs0).st.deletions ∧
    (advancedCompress env fs0).st.fs.existsF FPath.input = true := by
  rcases FS.statSize_isSome_of_existsF fs0 FPath.input h with ⟨n, hstat⟩
  have hred : advancedCompress env fs0
      = acFinalize env (levels.foldl (acStep env) (acInit fs0 n)) := by
    unfold advancedCompress
    rw [hstat]
  have hinit_fs : (acInit fs0 n).fs.existsF FPath.input = true := h
  have hinit_del : FPath.input ∉ (acInit fs0 n).deletions := by
    simp [acInit]
  have hloop := foldl_input_pres env levels (acInit fs0 n) hinit_fs hinit_del
  have hfin := acFinalize_input_pres env (levels.foldl (acStep env) (acInit fs0 n))
    hloop.1 hloop.2
  rw [hred]
  exact ⟨hfin.2, hfin.1⟩

/-- Claim C10 witness: a run with every preset succeeding on a scratch
area holding a 100-byte input. -/
theorem c10_input_preserved_witness :
    FS.existsF [(FPath.input, 100)] FPath.input = true ∧
    (advancedCompress (fun _ => { execError := false, outputCreated := true, outputSize := 40 })
      [(FPath.input, 100)]).st.fs.existsF FPath.input = true := by
  refine ⟨rfl, ?_⟩
  exact (c10_input_preserved
    (fun _ => { execError := false, outputCreated := true, outputSize := 40 })
    [(FPath.input, 100)] rfl).2

theorem foldl_attempts (env : Env) (L : List Level) (s : ACState) :
    (L.foldl (acStep env) s).attempts = s.attempts ++ L := by
  induction L generalizing s with
  | nil => simp
  | cons l ls ih =>
    rw [List.foldl_cons, ih, acStep_attempts]
    simp

/-- Every invocation of `advancedCompress` on the handler's fresh
scratch area attempts all three presets, in declared order. -/
theorem advancedCompress_attempts (env : Env) (origSize : Nat) :
    (advancedCompress env [(FPath.input, origSize)]).st.attempts = levels := by
  rw [advancedCompress_handler_red, acFinalize_attempts, foldl_attempts]
  rfl

theorem loop_output_fresh (env : Env) (origSize : Nat) :
    (levels.foldl (acStep env) (acInit [(FPath.input, origSize)] origSize)).fs.existsF
      FPath.output = false := by
  have h0 : (acInit [(FPath.input, origSize)] origSize).fs.existsF FPath.output = false := by
    simp [acInit, FS.existsF, List.find?]
  have h1 := acStep_existsF_false env (acInit [(FPath.input, origSize)] origSize)
    Level.extreme FPath.output (by simp) h0
  have h2 := acStep_existsF_false env _ Level.high FPath.output (by simp) h1
  have h3 := acStep_existsF_false env _ Level.medium FPath.output (by simp) h2
  exact h3

theorem gsRunResult_not_ok (b : GsBehavior) (fs : FS) (out : FPath)
    (hfresh : fs.existsF out = false)
    (hfail : ¬ (b.execError = false ∧ b.outputCreated = true ∧ 0 < b.outputSize)) :
    ∃ e, gsRunResult b fs out = Except.error e := by
  cases hr : gsRunResult b fs out with
  | ok u =>
    cases u
    exact absurd ((gsRunResult_ok_iff b fs out hfresh).mp hr) hfail
  | error e => exact ⟨e, rfl⟩

theorem runLevel_none_not_success (env : Env) (l : Level)
    (h : runLevel env l = none) :
    ¬ ((env l).execError = false ∧ (env l).outputCreated = true ∧ 0 < (env l).outputSize) := by
  intro hc
  simp only [runLevel] at h
  rw [if_pos] at h
  · cases h
  · exact ⟨by rw [hc.1]; simp, hc.2.1, hc.2.2⟩

/-- Claim C5: when every preset in the configured list fails, the
`/compress` invocation answers a single HTTP 500 compression-failure
response, and only after all three presets have been attempted in order
— no preset's failure aborts the remaining ones. -/
theorem c5_all_presets_failed (env : Env) (origSize : Nat)
    (h : ∀ l ∈ levels, runLevel env l = none) :
    (compressHandler env origSize).status = 500 ∧
    (compressHandler env origSize).success = false ∧
    (compressHandler env origSize).attempts = levels ∧
    (∃ e, (advancedCompress env [(FPath.input, origSize)]).result = Except.error e) := by
  have hbp : (levels.foldl (acStep env) (acInit [(FPath.input, origSize)] origSize)).bestPath
      = FPath.input := by
    have hpair := loop_best_eq env origSize
    have h2 := congrArg Prod.snd hpair
    simp only at h2
    rw [h2, loopBestPure_bestPath]
    have hmin : minSuccSize env = none := by
      unfold minSuccSize succSizes
      rw [show levels.filterMap (runLevel env) = [] from ?_]
      · simp [levels, List.filterMap_cons, h Level.extreme (by simp [levels]),
          h Level.high (by simp [levels]), h Level.medium (by simp [levels])]
    unfold specBestPresetUnderInput
    rw [hmin]
  have herr : ∃ e, (advancedCompress env [(FPath.input, origSize)]).result
      = Except.error e := by
    rw [advancedCompress_handler_red]
    rw [acFinalize_result_fallback env _ hbp]
    exact gsRunResult_not_ok (env Level.high) _ FPath.output
      (loop_output_fresh env origSize)
      (runLevel_none_not_success env Level.high (h Level.high (by simp [levels])))
  rcases herr with ⟨e, he⟩
  rw [compressHandler_of_error env origSize e he]
  exact ⟨rfl, rfl, advancedCompress_attempts env origSize, ⟨e, he⟩⟩

/-- Claim C5 witness: Ghostscript missing entirely (every run errors and
creates nothing) on a 100-byte input. -/
theorem c5_all_presets_failed_witness :
    (∀ l ∈ levels, runLevel
      (fun _ => { execError := true, outputCreated := false, outputSize := 0 }) l = none) ∧
    (compressHandler (fun _ => { execError := true, outputCreated := false, outputSize := 0 })
      100).status = 500 := by
  refine ⟨by decide, ?_⟩
  exact (c5_all_presets_failed
    (fun _ => { execError := true, outputCreated := false, outputSize := 0 })
    100 (by decide)).1

theorem acFinalize_fs_fallback (env : Env) (s : ACState)
    (h : s.bestPath = FPath.input) :
    (acFinalize env s).st.fs = gsRunFS (env Level.high) s.fs FPath.output := by
  simp only [acFinalize, gsRun, h]
  rfl

/-- Claim C1, counterexample: input 200000 bytes, every preset succeeds
with 250000-byte output. The handler answers 200 but serves the 250000
byte re-run of the 'high' preset with reduction -25 percent — not the
original bytes with 0.0 percent. -/
theorem c1_counterexample :
    (compressHandler
      (fun _ => { execError := false, outputCreated := true, outputSize := 250000 })
      200000).status = 200 ∧
    (compressHandler
      (fun _ => { execError := false, outputCreated := true, outputSize := 250000 })
      200000).compressedSize = 250000 ∧
    (compressHandler
      (fun _ => { execError := false, outputCreated := true, outputSize := 250000 })
      200000).originalSize = 200000 ∧
    ¬ (compressHandler
      (fun _ => { execError := false, outputCreated := true, outputSize := 250000 })
      200000).reductionPercent = 0 := by
  have hr : (advancedCompress
      (fun _ => { execError := false, outputCreated := true, outputSize := 250000 })
      [(FPath.input, 200000)]).result = Except.ok () := rfl
  rw [compressHandler_of_ok _ 200000 hr]
  have hS : (FS.statSize (advancedCompress
      (fun _ => { execError := false, outputCreated := true, outputSize := 250000 })
      [(FPath.input, 200000)]).st.fs FPath.output).getD 0 = 250000 := rfl
  refine ⟨rfl, hS, rfl, ?_⟩
  rw [hS]
  norm_num

/-- Claim C1 (amended): when every preset succeeds but none beats the
input size, the code does not fall back to the original bytes. The loop
adopts no candidate and `advancedCompress` re-runs the `'high'` preset
straight to the output path; the handler answers HTTP 200 with the high
run's output as the served file, and the reported reduction is
`((O - S)/O)*100 ≤ 0` — not 0.0 percent unless that size happens to
equal the input size. -/
theorem c1_no_fallback_to_original (env : Env) (origSize : Nat)
    (hpos : 0 < origSize)
    (hall : ∀ l ∈ levels, (env l).execError = false ∧ (env l).outputCreated = true ∧
      origSize ≤ (env l).outputSize) :
    (compressHandler env origSize).status = 200 ∧
    (compressHandler env origSize).compressedSize = (env Level.high).outputSize ∧
    (compressHandler env origSize).reductionPercent
      = ((origSize : ℚ) - ((env Level.high).outputSize : ℚ)) / (origSize : ℚ) * 100 ∧
    (compressHandler env origSize).reductionPercent ≤ 0 := by
  have hrl : ∀ l ∈ levels, runLevel env l = some ((env l).outputSize) := by
    intro l hl
    rcases hall l hl with ⟨he, hc, hs⟩
    unfold runLevel
    rw [if_pos]
    exact ⟨by rw [he]; simp, hc, by omega⟩
  -- the minimum successful size is not below the input size
  have hmin : minSuccSize env
      = some (Nat.min (Nat.min (env Level.extreme).outputSize (env Level.high).outputSize)
          (env Level.medium).outputSize) := by
    unfold minSuccSize succSizes
    rw [show levels.filterMap (runLevel env)
        = [(env Level.extreme).outputSize, (env Level.high).outputSize,
           (env Level.medium).outputSize] from ?_]
    · simp [Nat.min]
    · simp [levels, List.filterMap_cons, hrl Level.extreme (by simp [levels]),
        hrl Level.high (by simp [levels]), hrl Level.medium (by simp [levels])]
  have hspec : specBestPresetUnderInput env origSize = none := by
    have h1 := (hall Level.extreme (by simp [levels])).2.2
    have h2 := (hall Level.high (by simp [levels])).2.2
    have h3 := (hall Level.medium (by simp [levels])).2.2
    have hge : ¬ Nat.min (Nat.min (env Level.extreme).outputSize (env Level.high).outputSize)
        (env Level.medium).outputSize < origSize := by
      rw [Nat.not_lt]
      exact Nat.le_min.mpr ⟨Nat.le_min.mpr ⟨h1, h2⟩, h3⟩
    unfold specBestPresetUnderInput
    rw [hmin]
    exact if_neg hge
  have hbp : (levels.foldl (acStep env) (acInit [(FPath.input, origSize)] origSize)).bestPath
      = FPath.input := by
    have hpair := loop_best_eq env origSize
    have h2 := congrArg Prod.snd hpair
    simp only at h2
    rw [h2, loopBestPure_bestPath, hspec]
  have hhigh := hall Level.high (by simp [levels])
  have hok : (advancedCompress env [(FPath.input, origSize)]).result = Except.ok () := by
    rw [advancedCompress_handler_red, acFinalize_result_fallback env _ hbp]
    exact gsRunResult_ok_of (env Level.high) _ FPath.output hhigh.1 hhigh.2.1 (by omega)
  have hfs : (advancedCompress env [(FPath.input, origSize)]).st.fs
      = gsRunFS (env Level.high)
          (levels.foldl (acStep env) (acInit [(FPath.input, origSize)] origSize)).fs
          FPath.output := by
    rw [advancedCompress_handler_red, acFinalize_fs_fallback env _ hbp]
  have hS : (FS.statSize (advancedCompress env [(FPath.input, origSize)]).st.fs
      FPath.output).getD 0 = (env Level.high).outputSize := by
    rw [hfs, gsRunFS_statSize_self (env Level.high) _ FPath.output hhigh.2.1]
    rfl
  rw [compressHandler_of_ok env origSize hok]
  refine ⟨rfl, hS, ?_, ?_⟩
  · rw [hS]
  · rw [hS]
    have hOS : (origSize : ℚ) ≤ ((env Level.high).outputSize : ℚ) := by
      exact_mod_cast hhigh.2.2
    have hO : (0 : ℚ) < (origSize : ℚ) := by exact_mod_cast hpos
    have h1 : ((origSize : ℚ) - ((env Level.high).outputSize : ℚ)) ≤ 0 := by linarith
    have h2 : ((origSize : ℚ) - ((env Level.high).outputSize : ℚ)) / (origSize : ℚ) ≤ 0 :=
      div_nonpos_iff.mpr (Or.inr ⟨h1, le_of_lt hO⟩)
    nlinarith

/-- Claim C1 witness: input 200000 bytes, all presets produce 250000
bytes. -/
theorem c1_no_fallback_to_original_witness :
    0 < 200000 ∧
    (compressHandler
      (fun _ => { execError := false, outputCreated := true, outputSize := 250000 })
      200000).status = 200 ∧
    (compressHandler
      (fun _ => { execError := false, outputCreated := true, outputSize := 250000 })
      200000).reductionPercent ≤ 0 := by
  have h := c1_no_fallback_to_original
    (fun _ => { execError := false, outputCreated := true, outputSize := 250000 })
    200000 (by decide) (by decide)
  exact ⟨by decide, h.1, h.2.2.2⟩

/-- Claim C2, counterexample: input 100 bytes, only 'extreme' succeeds,
with a 150-byte output. The spec-words winner (first preset achieving
the strict minimum among successful candidates) is 'extreme', but the
code selects no candidate: best-so-far is seeded with the input size and
the comparison 150 < 100 fails, so the best path stays the input. -/
theorem c2_counterexample :
    specBestPreset
      (fun l => match l with
        | Level.extreme => { execError := false, outputCreated := true, outputSize := 150 }
        | _ => { execError := true, outputCreated := false, outputSize := 0 })
      = some Level.extreme ∧
    (advancedCompress
      (fun l => match l with
        | Level.extreme => { execError := false, outputCreated := true, outputSize := 150 }
        | _ => { execError := true, outputCreated := false, outputSize := 0 })
      [(FPath.input, 100)]).st.bestPath = FPath.input ∧
    ¬ (advancedCompress
      (fun l => match l with
        | Level.extreme => { execError := false, outputCreated := true, outputSize := 150 }
        | _ => { execError := true, outputCreated := false, outputSize := 0 })
      [(FPath.input, 100)]).st.bestPath = FPath.temp Level.extreme := by
  refine ⟨rfl, rfl, ?_⟩
  decide

/-- Claim C2 (amended): the best-of selection is deterministic, and the
winner is the first preset in declared order achieving the strict
minimum size among successful candidates, provided that minimum is
strictly smaller than the input size — the best-so-far comparison is
strict `<` against a best seeded with the input size, so ties keep the
earlier preset and a minimum not beating the input leaves the original
input selected. Whenever the code does select a candidate, it is exactly
the spec-words winner. -/
theorem c2_best_of_selection (env : Env) (origSize : Nat) :
    ((advancedCompress env [(FPath.input, origSize)]).st.bestPath
      = match specBestPresetUnderInput env origSize with
        | some l => FPath.temp l
        | none => FPath.input) ∧
    (∀ l, specBestPresetUnderInput env origSize = some l → specBestPreset env = some l) := by
  refine ⟨advancedCompress_bestPath env origSize, ?_⟩
  intro l h
  unfold specBestPresetUnderInput at h
  unfold specBestPreset
  cases hm : minSuccSize env with
  | none => rw [hm] at h; cases h
  | some m =>
    rw [hm] at h
    simp only [] at h ⊢
    split_ifs at h
    exact h

/-- Claim C2 witness: sizes 40/45/60 on a 100-byte input select
'extreme', the first preset achieving the strict minimum 40. -/
theorem c2_best_of_selection_witness :
    specBestPresetUnderInput
      (fun l => match l with
        | Level.extreme => { execError := false, outputCreated := true, outputSize := 40 }
        | Level.high => { execError := false, outputCreated := true, outputSize := 45 }
        | _ => { execError := false, outputCreated := true, outputSize := 60 })
      100 = some Level.extreme ∧
    specBestPreset
      (fun l => match l with
        | Level.extreme => { execError := false, outputCreated := true, outputSize := 40 }
        | Level.high => { execError := false, outputCreated := true, outputSize := 45 }
        | _ => { execError := false, outputCreated := true, outputSize := 60 })
      = some Level.extreme := by
  refine ⟨by decide, ?_⟩
  exact (c2_best_of_selection
    (fun l => match l with
      | Level.extreme => { execError := false, outputCreated := true, outputSize := 40 }
      | Level.high => { execError := false, outputCreated := true, outputSize := 45 }
      | _ => { execError := false, outputCreated := true, outputSize := 60 })
    100).2 Level.extreme (by decide)

theorem acStep_bestPath_shape (env : Env) (s : ACState) (l : Level)
    (h : s.bestPath = FPath.input ∨ (s.bestPath).isTemp = true) :
    (acStep env s l).bestPath = FPath.input ∨ ((acStep env s l).bestPath).isTemp = true := by
  simp only [acStep, gsRun]
  split
  · exact h
  · split
    · split
      · exact Or.inr rfl
      · exact Or.inr rfl
    · exact h

theorem foldl_liveOk (env : Env) (L : List Level) (s : ACState)
    (hsc : ∀ l, SelfClean (env l))
    (hlive : ∀ e ∈ s.fs, e.1 = FPath.input ∨ e.1 = s.bestPath) :
    ∀ e ∈ (L.foldl (acStep env) s).fs,
      e.1 = FPath.input ∨ e.1 = (L.foldl (acStep env) s).bestPath := by
  induction L generalizing s with
  | nil => exact hlive
  | cons l ls ih => exact ih (acStep env s l) (acStep_liveOk env s l (hsc l) hlive)

theorem foldl_bestPath_shape (env : Env) (L : List Level) (s : ACState)
    (h : s.bestPath = FPath.input ∨ (s.bestPath).isTemp = true) :
    (L.foldl (acStep env) s).bestPath = FPath.input ∨
      ((L.foldl (acStep env) s).bestPath).isTemp = true := by
  induction L generalizing s with
  | nil => exact h
  | cons l ls ih => exact ih (acStep env s l) (acStep_bestPath_shape env s l h)

/-- Claim C3, counterexample: the 'extreme' run creates a zero-length
output file and is rejected; 'high' and 'medium' succeed at 150 bytes on
a 100-byte input, so nothing beats the input and the fallback path runs.
The invocation returns 200, but the zero-length temp candidate from the
'extreme' run is still on disk and is not among the deferred-release
paths — a leaked scratch file. -/
theorem c3_counterexample :
    (compressHandler
      (fun l => match l with
        | Level.extreme => { execError := false, outputCreated := true, outputSize := 0 }
        | _ => { execError := false, outputCreated := true, outputSize := 150 })
      100).status = 200 ∧
    FS.existsF (compressHandler
      (fun l => match l with
        | Level.extreme => { execError := false, outputCreated := true, outputSize := 0 }
        | _ => { execError := false, outputCreated := true, outputSize := 150 })
      100).fs (FPath.temp Level.extreme) = true ∧
    FPath.temp Level.extreme ∉ (compressHandler
      (fun l => match l with
        | Level.extreme => { execError := false, outputCreated := true, outputSize := 0 }
        | _ => { execError := false, outputCreated := true, outputSize := 150 })
      100).deferred := by
  refine ⟨?_, ?_, ?_⟩
  · decide
  · decide
  · decide

/-- Claim C3 (amended): provided every failing preset run leaves no
output file behind (the adapter self-cleans on failure), every scratch
file still on disk when the `/compress` invocation returns is one handed
to the deferred `cleanupFile` safety net — the input and output files on
success — and on the failure path nothing is left at all. Without that
proviso, a candidate file created by a failing run (e.g. an empty
output) leaks on the fallback path, as the counterexample shows. -/
theorem c3_scratch_release (env : Env) (origSize : Nat)
    (hsc : ∀ l, SelfClean (env l)) :
    (∀ e ∈ (compressHandler env origSize).fs,
      e.1 ∈ (compressHandler env origSize).deferred) ∧
    ((compressHandler env origSize).success = false →
      (compressHandler env origSize).fs = []) := by
  have hlive0 : ∀ e ∈ (acInit [(FPath.input, origSize)] origSize).fs,
      e.1 = FPath.input ∨ e.1 = (acInit [(FPath.input, origSize)] origSize).bestPath := by
    intro e he
    simp only [acInit] at he ⊢
    rw [List.mem_singleton] at he
    rw [he]
    exact Or.inl rfl
  have hlive := foldl_liveOk env levels (acInit [(FPath.input, origSize)] origSize)
    hsc hlive0
  have hshape := foldl_bestPath_shape env levels (acInit [(FPath.input, origSize)] origSize)
    (Or.inl rfl)
  by_cases hbp : (levels.foldl (acStep env)
      (acInit [(FPath.input, origSize)] origSize)).bestPath = FPath.input
  · -- fallback branch
    cases hr : gsRunResult (env Level.high)
        (levels.foldl (acStep env) (acInit [(FPath.input, origSize)] origSize)).fs
        FPath.output with
    | ok u =>
      cases u
      have hok : (advancedCompress env [(FPath.input, origSize)]).result = Except.ok () := by
        rw [advancedCompress_handler_red, acFinalize_result_fallback env _ hbp]
        exact hr
      rw [compressHandler_of_ok env origSize hok]
      constructor
      · intro e he
        rw [advancedCompress_handler_red, acFinalize_fs_fallback env _ hbp] at he
        rcases mem_gsRunFS _ _ _ _ he with h1 | h1
        · rcases hlive e h1 with h2 | h2
          · simp [h2]
          · rw [hbp] at h2
            simp [h2]
        · rw [h1]
          simp
      · intro hcontra
        simp at hcontra
    | error e2 =>
      have herr : (advancedCompress env [(FPath.input, origSize)]).result
          = Except.error e2 := by
        rw [advancedCompress_handler_red, acFinalize_result_fallback env _ hbp]
        exact hr
      have hc : (env Level.high).outputCreated = false := by
        cases hcc : (env Level.high).outputCreated
        · rfl
        · rcases hsc Level.high hcc with ⟨he2, hn2⟩
          rw [gsRunResult_ok_of (env Level.high) _ FPath.output he2 hcc hn2] at hr
          cases hr
      have hfs2 : (advancedCompress env [(FPath.input, origSize)]).st.fs
          = (levels.foldl (acStep env) (acInit [(FPath.input, origSize)] origSize)).fs := by
        rw [advancedCompress_handler_red, acFinalize_fs_fallback env _ hbp]
        simp [gsRunFS, hc]
      have hALL : ∀ e ∈ (levels.foldl (acStep env)
          (acInit [(FPath.input, origSize)] origSize)).fs, e.1 = FPath.input := by
        intro e he
        rcases hlive e he with h2 | h2
        · exact h2
        · rw [hbp] at h2
          exact h2
      rw [compressHandler_of_error env origSize e2 herr]
      have hempty :
          (if FS.existsF (advancedCompress env [(FPath.input, origSize)]).st.fs FPath.input
           then FS.unlink (advancedCompress env [(FPath.input, origSize)]).st.fs FPath.input
           else (advancedCompress env [(FPath.input, origSize)]).st.fs) = [] := by
        rw [hfs2]
        split
        · rw [List.eq_nil_iff_forall_not_mem]
          intro e he
          rcases FS.mem_unlink _ _ _ he with ⟨h3, h4⟩
          exact h4 (hALL e h3)
        · next hex =>
          rw [List.eq_nil_iff_forall_not_mem]
          intro e he
          have hex2 : FS.existsF (levels.foldl (acStep env)
              (acInit [(FPath.input, origSize)] origSize)).fs FPath.input = false := by
            simpa using hex
          exact (FS.existsF_eq_false_iff _ FPath.input).mp hex2 e he (hALL e he)
      refine ⟨?_, fun _ => hempty⟩
      intro e he
      rw [hempty] at he
      cases he
  · -- winner branch
    have hok : (advancedCompress env [(FPath.input, origSize)]).result = Except.ok () := by
      rw [advancedCompress_handler_red]
      exact acFinalize_result_winner env _ hbp
    have htempbp : ((levels.foldl (acStep env)
        (acInit [(FPath.input, origSize)] origSize)).bestPath).isTemp = true := by
      rcases hshape with h1 | h1
      · exact absurd h1 hbp
      · exact h1
    rw [compressHandler_of_ok env origSize hok]
    constructor
    · intro e he
      rw [advancedCompress_handler_red] at he
      simp only [acFinalize, gsRun] at he
      rw [if_neg hbp] at he
      rcases List.mem_filter.mp he with ⟨hin2, hnt⟩
      have hin1 : e ∈ (levels.foldl (acStep env)
            (acInit [(FPath.input, origSize)] origSize)).fs.write FPath.output
          ((((levels.foldl (acStep env)
            (acInit [(FPath.input, origSize)] origSize)).fs.statSize
            ((levels.foldl (acStep env)
              (acInit [(FPath.input, origSize)] origSize)).bestPath)).getD 0)) := by
        revert hin2
        split
        · intro hin2
          exact (FS.mem_unlink _ _ _ hin2).1
        · intro hin2
          exact hin2
      rcases FS.mem_write _ _ _ _ hin1 with h1 | h1
      · rw [h1]
        simp
      · rcases hlive e h1 with h2 | h2
        · simp [h2]
        · exfalso
          rw [h2] at hnt
          rw [htempbp] at hnt
          simp at hnt
    · intro hcontra
      simp at hcontra

/-- Claim C3 witness: every preset succeeds with a 40-byte output on a
100-byte input, so the self-cleaning proviso holds and everything left
on disk is deferred. -/
theorem c3_scratch_release_witness :
    (∀ l : Level, SelfClean
      ((fun _ => { execError := false, outputCreated := true, outputSize := 40 }) l)) ∧
    (∀ e ∈ (compressHandler
        (fun _ => { execError := false, outputCreated := true, outputSize := 40 }) 100).fs,
      e.1 ∈ (compressHandler
        (fun _ => { execError := false, outputCreated := true, outputSize := 40 }) 100).deferred) := by
  refine ⟨fun l hc => ⟨rfl, Nat.succ_pos 39⟩, ?_⟩
  exact (c3_scratch_release
    (fun _ => { execError := false, outputCreated := true, outputSize := 40 })
    100 (fun l hc => ⟨rfl, Nat.succ_pos 39⟩)).1
